import Mathlib

/-!
Verification of the catalog cross-matching and Monte Carlo significance engine
of streamlit_app.py (StarDustVerse/Star_Dust).

The shallow embedding below mirrors the Python source: angles are real numbers
in degrees, catalogs are lists of rows, the numpy random draws are fed by an
explicit stream of unit uniform variates (rng : ℕ → ℝ, draw index to value),
consumed in the order the code draws them.
-/

open Real

/-- A catalog row: right ascension and declination in degrees, plus an optional
name column, as consumed by the tool. -/
structure SkyPoint where
  ra : ℝ
  dec : ℝ
  name : Option String

/-- One match dictionary appended by cross_match_catalogs (lines 41-51 of
streamlit_app.py). -/
structure MatchRecord where
  gamma_idx : ℕ
  source_idx : ℕ
  gamma_ra : ℝ
  gamma_dec : ℝ
  source_ra : ℝ
  source_dec : ℝ
  separation_arcmin : ℝ
  gamma_name : String
  source_name : String

/-- Degree to radian conversion used by the coordinate machinery. -/
noncomputable def deg2rad (d : ℝ) : ℝ := d * (Real.pi / 180)

/-- np.degrees: radian to degree conversion (line 66). -/
noncomputable def np_degrees (r : ℝ) : ℝ := r * (180 / Real.pi)

/-- Two-argument arctangent atan2 y x, modelled as the argument of the complex
number with real part x and imaginary part y. -/
noncomputable def atan2 (y x : ℝ) : ℝ := Complex.arg ⟨x, y⟩

/-- calculate_angular_separation (lines 19-23): the exact great-circle
separation computed by astropy SkyCoord.separation (Vincenty formula), inputs
and output in degrees. -/
noncomputable def calculate_angular_separation (ra1 dec1 ra2 dec2 : ℝ) : ℝ :=
  let l1 := deg2rad ra1
  let p1 := deg2rad dec1
  let l2 := deg2rad ra2
  let p2 := deg2rad dec2
  let sdlon := Real.sin (l2 - l1)
  let cdlon := Real.cos (l2 - l1)
  let num1 := Real.cos p2 * sdlon
  let num2 := Real.cos p1 * Real.sin p2 - Real.sin p1 * Real.cos p2 * cdlon
  let denom := Real.sin p1 * Real.sin p2 + Real.cos p1 * Real.cos p2 * cdlon
  np_degrees (atan2 (Real.sqrt (num1 ^ 2 + num2 ^ 2)) denom)

open Classical in
/-- cross_match_catalogs (lines 25-53): for every primary (gamma) row, keep the
secondary (source) rows whose angular separation is at most the search radius
converted to degrees, and emit one record per kept pair, with the separation
converted back to arc-minutes and name fallbacks Gamma_i / Source_j. -/
noncomputable def cross_match_catalogs (gamma_cat source_cat : List SkyPoint)
    (search_radius_arcmin : ℝ) : List MatchRecord :=
  let search_radius_deg := search_radius_arcmin / 60
  gamma_cat.enum.flatMap fun gi =>
    (source_cat.enum.filter fun si =>
        decide (calculate_angular_separation gi.2.ra gi.2.dec si.2.ra si.2.dec ≤
          search_radius_deg)).map fun si =>
      { gamma_idx := gi.1
        source_idx := si.1
        gamma_ra := gi.2.ra
        gamma_dec := gi.2.dec
        source_ra := si.2.ra
        source_dec := si.2.dec
        separation_arcmin :=
          calculate_angular_separation gi.2.ra gi.2.dec si.2.ra si.2.dec * 60
        gamma_name := gi.2.name.getD ("Gamma_" ++ toString gi.1)
        source_name := si.2.name.getD ("Source_" ++ toString si.1) }

/-- np.random.uniform(lo, hi) applied to one unit uniform draw u. -/
noncomputable def uniform_scale (lo hi u : ℝ) : ℝ := lo + (hi - lo) * u

/-- np.random.uniform(lo, hi, n): a batch of n draws, fed by the unit uniform
stream rng from index start. -/
noncomputable def uniform_draws (rng : ℕ → ℝ) (lo hi : ℝ) (start n : ℕ) : List ℝ :=
  (List.range n).map fun i => uniform_scale lo hi (rng (start + i))

/-- Line 66: the Dec of one random primary point,
np.degrees(np.arcsin(2 u - 1)) for a unit uniform draw u — the area-uniform
(cos-weighted) law on the sphere. -/
noncomputable def random_gamma_dec (u : ℝ) : ℝ := np_degrees (Real.arcsin (2 * u - 1))

/-- Line 66 in batch form: the Dec batch of the random primary catalog. -/
noncomputable def gamma_dec_draws (rng : ℕ → ℝ) (start n : ℕ) : List ℝ :=
  (List.range n).map fun i => random_gamma_dec (rng (start + i))

/-- Line 73: the Dec batch of the random secondary catalog is
np.random.uniform(-90, 90, n) — naive uniform in declination. -/
noncomputable def source_dec_draws (rng : ℕ → ℝ) (start n : ℕ) : List ℝ :=
  uniform_draws rng (-90) 90 start n

/-- Lines 72-73: the planar coordinate-difference metric
sqrt((ra - ra2)^2 + (dec - dec2)^2) used inside the Monte Carlo loop. -/
noncomputable def planar_separation (ra dec ra2 dec2 : ℝ) : ℝ :=
  Real.sqrt ((ra - ra2) ^ 2 + (dec - dec2) ^ 2)

open Classical in
/-- Lines 70-74, inner loop body: for one random primary point, draw a fresh
secondary batch (RA uniform on [0, 360), Dec uniform on [-90, 90)) and count
how many land within radius_deg in the planar metric. -/
noncomputable def point_random_matches (rng : ℕ → ℝ) (start n_sources : ℕ)
    (ra dec radius_deg : ℝ) : ℕ :=
  let src_ra := uniform_draws rng 0 360 start n_sources
  let src_dec := source_dec_draws rng (start + n_sources) n_sources
  (src_ra.zip src_dec).countP fun q =>
    decide (planar_separation ra dec q.1 q.2 ≤ radius_deg)

/-- Lines 63-76: one Monte Carlo iteration. The primary batch has RA uniform on
[0, 360) and Dec by the arcsin law; each primary point then gets its own fresh
secondary batch, and the per-point counts are summed into one null sample. -/
noncomputable def null_sample (rng : ℕ → ℝ) (start n_gamma n_sources : ℕ)
    (radius_deg : ℝ) : ℕ :=
  let ras := uniform_draws rng 0 360 start n_gamma
  let decs := gamma_dec_draws rng (start + n_gamma) n_gamma
  (((ras.zip decs).enum).map fun ji =>
      point_random_matches rng (start + 2 * n_gamma + ji.1 * (2 * n_sources))
        n_sources ji.2.1 ji.2.2 radius_deg).sum

/-- Lines 62-76: the list random_matches, one null sample per iteration, each
iteration consuming its own fresh block of the draw stream. -/
noncomputable def null_distribution (rng : ℕ → ℝ) (n_gamma n_sources : ℕ)
    (radius_deg : ℝ) (n_iterations : ℕ) : List ℕ :=
  (List.range n_iterations).map fun t =>
    null_sample rng (t * (2 * n_gamma + n_gamma * (2 * n_sources))) n_gamma
      n_sources radius_deg

open Classical in
/-- Line 79: p_value = np.sum(random_matches >= n_matches) / n_iterations. -/
noncomputable def p_value_of (random_matches : List ℕ) (n_matches n_iterations : ℕ) : ℝ :=
  ((random_matches.countP fun x => decide (n_matches ≤ x) : ℕ) : ℝ) / (n_iterations : ℝ)

/-- Line 80: significance = -np.log10(max(p_value, 1 / n_iterations)). -/
noncomputable def significance_of (p_value : ℝ) (n_iterations : ℕ) : ℝ :=
  -Real.logb 10 (max p_value (1 / (n_iterations : ℝ)))

/-- monte_carlo_significance (lines 55-82). The radius is converted from
arc-minutes to degrees (line 57), the null distribution is generated, and the
p-value and significance are derived. With n_iterations = 0 the Python
expression 1 / n_iterations raises ZeroDivisionError, modelled here as none. -/
noncomputable def monte_carlo_significance (rng : ℕ → ℝ) (n_gamma n_sources n_matches : ℕ)
    (search_radius_arcmin : ℝ) (n_iterations : ℕ) : Option (ℝ × ℝ × List ℕ) :=
  if n_iterations = 0 then none
  else
    let search_radius_deg := search_radius_arcmin / 60
    let random_matches :=
      null_distribution rng n_gamma n_sources search_radius_deg n_iterations
    let p_value := p_value_of random_matches n_matches n_iterations
    some (p_value, significance_of p_value n_iterations, random_matches)

/-- np.mean(random_dist) (line 286 of main). -/
noncomputable def np_mean (xs : List ℕ) : ℝ := ((xs.sum : ℕ) : ℝ) / (xs.length : ℝ)

/-- np.std(random_dist) (line 287 of main): numpy default ddof = 0, i.e. the
population standard deviation with denominator n. -/
noncomputable def np_std (xs : List ℕ) : ℝ :=
  Real.sqrt ((xs.map fun x => ((x : ℝ) - np_mean xs) ^ 2).sum / (xs.length : ℝ))

/-- Line 288 of main: z-score = (observed - mean) / std. -/
noncomputable def z_score (observed : ℕ) (xs : List ℕ) : ℝ :=
  ((observed : ℝ) - np_mean xs) / np_std xs

/-- Follows the words of the spec, for comparison with np_std: the unbiased
sample standard deviation with the n - 1 denominator. -/
noncomputable def spec_unbiased_std (xs : List ℕ) : ℝ :=
  Real.sqrt ((xs.map fun x => ((x : ℝ) - np_mean xs) ^ 2).sum / ((xs.length : ℝ) - 1))

/-- The set of (primary index, secondary index) pairs matched at a given
radius. -/
def matchedPairs (g s : List SkyPoint) (r : ℝ) : Set (ℕ × ℕ) :=
  {pq | ∃ m ∈ cross_match_catalogs g s r, m.gamma_idx = pq.1 ∧ m.source_idx = pq.2}

/-! ### Helper lemmas -/

theorem atan2_nonneg (y x : ℝ) (hy : 0 ≤ y) : 0 ≤ atan2 y x :=
  Complex.arg_nonneg_iff.mpr hy

theorem atan2_zero_one : atan2 0 1 = 0 := by
  unfold atan2
  have h : (⟨1, 0⟩ : ℂ) = 1 := by simp [Complex.ext_iff]
  rw [h, Complex.arg_one]

theorem np_degrees_nonneg {x : ℝ} (hx : 0 ≤ x) : 0 ≤ np_degrees x := by
  unfold np_degrees
  have h := Real.pi_pos
  positivity

theorem np_degrees_zero : np_degrees 0 = 0 := by
  unfold np_degrees
  ring

theorem calculate_angular_separation_nonneg (ra1 dec1 ra2 dec2 : ℝ) :
    0 ≤ calculate_angular_separation ra1 dec1 ra2 dec2 := by
  unfold calculate_angular_separation
  exact np_degrees_nonneg (atan2_nonneg _ _ (Real.sqrt_nonneg _))

theorem calculate_angular_separation_self (ra dec : ℝ) :
    calculate_angular_separation ra dec ra dec = 0 := by
  unfold calculate_angular_separation
  simp only [sub_self, Real.sin_zero, Real.cos_zero, mul_zero, mul_one]
  rw [show Real.cos (deg2rad dec) * Real.sin (deg2rad dec) -
      Real.sin (deg2rad dec) * Real.cos (deg2rad dec) = 0 by ring]
  rw [show Real.sin (deg2rad dec) * Real.sin (deg2rad dec) +
      Real.cos (deg2rad dec) * Real.cos (deg2rad dec) = 1 by
    nlinarith [Real.sin_sq_add_cos_sq (deg2rad dec)]]
  norm_num [atan2_zero_one, np_degrees_zero]

open Classical in
theorem mem_cross_match_iff {g s : List SkyPoint} {r : ℝ} {m : MatchRecord} :
    m ∈ cross_match_catalogs g s r ↔
      ∃ gi ∈ g.enum, ∃ si ∈ s.enum,
        calculate_angular_separation gi.2.ra gi.2.dec si.2.ra si.2.dec ≤ r / 60 ∧
        m = { gamma_idx := gi.1, source_idx := si.1, gamma_ra := gi.2.ra,
              gamma_dec := gi.2.dec, source_ra := si.2.ra, source_dec := si.2.dec,
              separation_arcmin :=
                calculate_angular_separation gi.2.ra gi.2.dec si.2.ra si.2.dec * 60,
              gamma_name := gi.2.name.getD ("Gamma_" ++ toString gi.1),
              source_name := si.2.name.getD ("Source_" ++ toString si.1) } := by
  unfold cross_match_catalogs
  simp only [List.mem_flatMap, List.mem_map, List.mem_filter, decide_eq_true_eq]
  constructor
  · rintro ⟨gi, hgi, si, ⟨hsi, hsep⟩, hm⟩
    exact ⟨gi, hgi, si, hsi, hsep, hm.symm⟩
  · rintro ⟨gi, hgi, si, hsi, hsep, hm⟩
    exact ⟨gi, hgi, si, ⟨hsi, hsep⟩, hm.symm⟩

theorem cross_match_subset_of_le {g s : List SkyPoint} {r1 r2 : ℝ} (h : r1 ≤ r2)
    {m : MatchRecord} (hm : m ∈ cross_match_catalogs g s r1) :
    m ∈ cross_match_catalogs g s r2 := by
  rcases mem_cross_match_iff.mp hm with ⟨gi, hgi, si, hsi, hsep, hrec⟩
  exact mem_cross_match_iff.mpr ⟨gi, hgi, si, hsi, hsep.trans (by linarith), hrec⟩

theorem cross_match_empty_of_neg {g s : List SkyPoint} {r : ℝ} (hr : r < 0) :
    cross_match_catalogs g s r = [] := by
  rw [List.eq_nil_iff_forall_not_mem]
  intro m hm
  rcases mem_cross_match_iff.mp hm with ⟨gi, _, si, _, hsep, _⟩
  have h0 := calculate_angular_separation_nonneg gi.2.ra gi.2.dec si.2.ra si.2.dec
  linarith

theorem cross_match_singleton_eval :
    cross_match_catalogs [⟨0, 0, some "G"⟩] [⟨0, 0, some "S"⟩] 5 =
      [⟨0, 0, 0, 0, 0, 0, 0, "G", "S"⟩] := by
  have hsep : calculate_angular_separation 0 0 0 0 = 0 :=
    calculate_angular_separation_self 0 0
  unfold cross_match_catalogs
  simp only [List.enum, List.enumFrom, List.flatMap_cons, List.flatMap_nil,
    List.filter_cons, List.filter_nil, List.map_cons, List.map_nil, List.append_nil]
  norm_num [hsep]

/-! ### Claim theorems -/

/-- C4: for every primary catalog, secondary catalog and search radius in
arc-minutes, every MatchRecord emitted by cross_match_catalogs has
separation_arcmin at most the search radius in arc-minutes. (Proved for all
radii, in particular the non-negative ones the claim quantifies over.) -/
theorem C4_match_separation_le_radius (g s : List SkyPoint) (r : ℝ)
    (m : MatchRecord) (hm : m ∈ cross_match_catalogs g s r) :
    m.separation_arcmin ≤ r := by
  rcases mem_cross_match_iff.mp hm with ⟨gi, _, si, _, hsep, hrec⟩
  subst hrec
  show calculate_angular_separation gi.2.ra gi.2.dec si.2.ra si.2.dec * 60 ≤ r
  linarith

/-- Witness for C4 at a concrete input: two coincident points at the origin
with radius 5 arc-minutes produce exactly the coincidence record, whose
separation is at most 5. -/
theorem C4_match_separation_le_radius_witness :
    (⟨0, 0, 0, 0, 0, 0, 0, "G", "S"⟩ : MatchRecord) ∈
        cross_match_catalogs [⟨0, 0, some "G"⟩] [⟨0, 0, some "S"⟩] 5 ∧
      (⟨0, 0, 0, 0, 0, 0, 0, "G", "S"⟩ : MatchRecord).separation_arcmin ≤ 5 := by
  have hm : (⟨0, 0, 0, 0, 0, 0, 0, "G", "S"⟩ : MatchRecord) ∈
      cross_match_catalogs [⟨0, 0, some "G"⟩] [⟨0, 0, some "S"⟩] 5 := by
    rw [cross_match_singleton_eval]
    exact List.mem_singleton.mpr rfl
  exact ⟨hm, C4_match_separation_le_radius _ _ _ _ hm⟩

/-- C5: the cross-match is monotone in the search radius: for r1 < r2 the set
of (primary index, secondary index) pairs matched at r1 is a subset of the set
matched at r2. -/
theorem C5_matchedPairs_mono (g s : List SkyPoint) (r1 r2 : ℝ) (h : r1 < r2) :
    matchedPairs g s r1 ⊆ matchedPairs g s r2 := by
  rintro ⟨i, j⟩ ⟨m, hm, hij⟩
  exact ⟨m, cross_match_subset_of_le h.le hm, hij⟩

/-- Witness for C5 at a concrete input: radii 1 < 5 over singleton catalogs. -/
theorem C5_matchedPairs_mono_witness :
    (1 : ℝ) < 5 ∧
      matchedPairs [⟨0, 0, some "G"⟩] [⟨0, 0, some "S"⟩] 1 ⊆
        matchedPairs [⟨0, 0, some "G"⟩] [⟨0, 0, some "S"⟩] 5 :=
  ⟨by norm_num, C5_matchedPairs_mono _ _ _ _ (by norm_num)⟩

/-- C6: cross-matching with an empty primary catalog or an empty secondary
catalog returns the empty match list for every radius; the function is total,
so no error is raised. -/
theorem C6_empty_catalog_empty_matches (cat : List SkyPoint) (r : ℝ) :
    cross_match_catalogs [] cat r = [] ∧ cross_match_catalogs cat [] r = [] := by
  constructor
  · rfl
  · rw [List.eq_nil_iff_forall_not_mem]
    intro m hm
    rcases mem_cross_match_iff.mp hm with ⟨gi, _, si, hsi, _, _⟩
    simp [List.enum] at hsi

/-- C9: calling the cross-matcher with a negative search radius returns the
empty match list without error, because every angular separation is
non-negative and thus never at most the negative radius. -/
theorem C9_negative_radius_empty (g s : List SkyPoint) (r : ℝ) (hr : r < 0) :
    cross_match_catalogs g s r = [] :=
  cross_match_empty_of_neg hr

/-- Witness for C9 at a concrete input: non-empty singleton catalogs with
radius -1 arc-minute. -/
theorem C9_negative_radius_empty_witness :
    (-1 : ℝ) < 0 ∧
      cross_match_catalogs [⟨0, 0, some "G"⟩] [⟨0, 0, some "S"⟩] (-1) = [] :=
  ⟨by norm_num, C9_negative_radius_empty _ _ _ (by norm_num)⟩

/-- C8 counterexample: the claim says every invalid input (negative radius,
non-positive iteration count) is rejected before any computation. At the
concrete invalid input radius = -2 the cross-matcher does not reject: it runs
to completion and returns an (empty) result, surfacing no error. -/
theorem C8_counterexample_no_rejection :
    cross_match_catalogs [⟨10, 20, some "G"⟩] [⟨30, 40, some "S"⟩] (-2) = [] :=
  cross_match_empty_of_neg (by norm_num)

/-- C8 amended: the engine performs no up-front input validation. A negative
search radius is accepted and yields an empty (computed) match list; a zero
iteration count is not rejected before the simulation either — the Python code
only fails at the expression 1 / n_iterations on line 80, after the Monte
Carlo loop has run, modelled here by monte_carlo_significance returning
none. -/
theorem C8_no_validation (g s : List SkyPoint) (r : ℝ) (hr : r < 0)
    (rng : ℕ → ℝ) (n_gamma n_sources n_matches : ℕ) (r2 : ℝ) :
    cross_match_catalogs g s r = [] ∧
      monte_carlo_significance rng n_gamma n_sources n_matches r2 0 = none := by
  refine ⟨cross_match_empty_of_neg hr, ?_⟩
  unfold monte_carlo_significance
  simp

/-- Witness for the amended C8 at a concrete input: radius -3 and zero
iterations. -/
theorem C8_no_validation_witness :
    (-3 : ℝ) < 0 ∧
      (cross_match_catalogs [⟨0, 0, some "G"⟩] [⟨0, 0, some "S"⟩] (-3) = [] ∧
        monte_carlo_significance (fun _ => 0) 1 1 0 5 0 = none) :=
  ⟨by norm_num, C8_no_validation _ _ _ (by norm_num) _ _ _ _ _⟩

theorem null_distribution_length (rng : ℕ → ℝ) (n_gamma n_sources : ℕ)
    (radius_deg : ℝ) (n_iterations : ℕ) :
    (null_distribution rng n_gamma n_sources radius_deg n_iterations).length =
      n_iterations := by
  unfold null_distribution
  simp

theorem monte_carlo_eval :
    monte_carlo_significance (fun _ => 0) 0 0 0 0 1 = some (1, 0, [0]) := by
  have hdist : null_distribution (fun _ => 0) 0 0 (0 / 60) 1 = [0] := by
    unfold null_distribution null_sample uniform_draws gamma_dec_draws
    simp
  unfold monte_carlo_significance
  rw [if_neg one_ne_zero]
  simp only [hdist]
  unfold p_value_of significance_of
  norm_num [Real.logb_one]

open Classical in
/-- C2: whenever monte_carlo_significance returns a result for an iteration
count of at least 1, the null distribution has length equal to the iteration
count, the p-value equals the count of null samples at least the observed
match count divided by the iteration count, and the p-value lies in [0, 1]. -/
theorem C2_p_value_formula (rng : ℕ → ℝ) (n_gamma n_sources n_matches : ℕ)
    (search_radius_arcmin : ℝ) (n_iterations : ℕ) (p sig : ℝ) (dist : List ℕ)
    (hit : 1 ≤ n_iterations)
    (h : monte_carlo_significance rng n_gamma n_sources n_matches
        search_radius_arcmin n_iterations = some (p, sig, dist)) :
    dist.length = n_iterations ∧
      p = ((dist.countP fun x => decide (n_matches ≤ x) : ℕ) : ℝ) / (n_iterations : ℝ) ∧
      0 ≤ p ∧ p ≤ 1 := by
  unfold monte_carlo_significance at h
  rw [if_neg (Nat.one_le_iff_ne_zero.mp hit)] at h
  simp only [Option.some.injEq, Prod.mk.injEq] at h
  obtain ⟨hp, _, hdist⟩ := h
  have hpos : (0 : ℝ) < (n_iterations : ℝ) := by
    exact_mod_cast Nat.lt_of_lt_of_le Nat.zero_lt_one hit
  rw [← hdist, ← hp]
  refine ⟨null_distribution_length rng n_gamma n_sources
    (search_radius_arcmin / 60) n_iterations, rfl, ?_, ?_⟩
  · unfold p_value_of
    positivity
  · unfold p_value_of
    rw [div_le_one hpos]
    have hcount : ((null_distribution rng n_gamma n_sources
        (search_radius_arcmin / 60) n_iterations).countP
          fun x => decide (n_matches ≤ x)) ≤
        (null_distribution rng n_gamma n_sources
          (search_radius_arcmin / 60) n_iterations).length :=
      List.countP_le_length _
    calc (((null_distribution rng n_gamma n_sources
        (search_radius_arcmin / 60) n_iterations).countP
          fun x => decide (n_matches ≤ x) : ℕ) : ℝ)
        ≤ ((null_distribution rng n_gamma n_sources
            (search_radius_arcmin / 60) n_iterations).length : ℝ) := by
          exact_mod_cast hcount
      _ = (n_iterations : ℝ) := by rw [null_distribution_length]

/-- Witness for C2 at a concrete input: with no catalog rows, radius 0, one
iteration and observed count 0, the engine returns p-value 1 on the null
distribution with the single sample 0. -/
theorem C2_p_value_formula_witness :
    1 ≤ 1 ∧
      (([0] : List ℕ).length = 1 ∧
        (1 : ℝ) = ((([0] : List ℕ).countP fun x => decide (0 ≤ x) : ℕ) : ℝ) / ((1 : ℕ) : ℝ) ∧
        (0 : ℝ) ≤ 1 ∧ (1 : ℝ) ≤ 1) :=
  ⟨le_refl 1,
    C2_p_value_formula (fun _ => 0) 0 0 0 0 1 1 0 [0] (le_refl 1) monte_carlo_eval⟩

/-- C3: for every iteration count at least 1 and every p-value in [0, 1], the
significance equals -log10(max(p, 1/iterations)); it is non-negative and at
most log10(iterations), hence finite, including at p = 0 where the floor
1/iterations takes over. -/
theorem C3_significance_bounds (n_iterations : ℕ) (p : ℝ) (hit : 1 ≤ n_iterations)
    (hp0 : 0 ≤ p) (hp1 : p ≤ 1) :
    significance_of p n_iterations =
        -Real.logb 10 (max p (1 / (n_iterations : ℝ))) ∧
      0 ≤ significance_of p n_iterations ∧
      significance_of p n_iterations ≤ Real.logb 10 (n_iterations : ℝ) := by
  have hit' : (1 : ℝ) ≤ (n_iterations : ℝ) := by exact_mod_cast hit
  have hpos : (0 : ℝ) < (n_iterations : ℝ) := lt_of_lt_of_le one_pos hit'
  have hinv_pos : 0 < 1 / (n_iterations : ℝ) := by positivity
  have hinv_le : 1 / (n_iterations : ℝ) ≤ 1 := by
    rw [div_le_one hpos]; exact hit'
  have hmax_pos : 0 < max p (1 / (n_iterations : ℝ)) :=
    lt_of_lt_of_le hinv_pos (le_max_right _ _)
  have hmax_le : max p (1 / (n_iterations : ℝ)) ≤ 1 := max_le hp1 hinv_le
  refine ⟨rfl, ?_, ?_⟩
  · unfold significance_of
    have hle := Real.logb_nonpos (show (1 : ℝ) < 10 by norm_num) hmax_pos.le hmax_le
    linarith
  · unfold significance_of
    have h1 : Real.logb 10 (1 / (n_iterations : ℝ)) ≤
        Real.logb 10 (max p (1 / (n_iterations : ℝ))) :=
      Real.logb_le_logb_of_le (by norm_num) hinv_pos (le_max_right _ _)
    have h2 : Real.logb 10 (1 / (n_iterations : ℝ)) =
        -Real.logb 10 (n_iterations : ℝ) := by
      rw [one_div, Real.logb_inv]
    linarith

/-- Witness for C3 at a concrete input: one iteration and p-value 0, the edge
case where the floor prevents a non-finite logarithm. -/
theorem C3_significance_bounds_witness :
    1 ≤ 1 ∧ (0 : ℝ) ≤ 0 ∧ (0 : ℝ) ≤ 1 ∧
      (significance_of 0 1 = -Real.logb 10 (max 0 (1 / ((1 : ℕ) : ℝ))) ∧
        0 ≤ significance_of 0 1 ∧
        significance_of 0 1 ≤ Real.logb 10 ((1 : ℕ) : ℝ)) :=
  ⟨le_refl 1, le_refl 0, zero_le_one,
    C3_significance_bounds 1 0 (le_refl 1) (le_refl 0) zero_le_one⟩

/-- C10: when the observed match count is 0 and the iteration count is at
least 1, every null sample (a natural number count) is at least 0, so the
returned p-value is 1 and the significance is 0. -/
theorem C10_zero_observed (rng : ℕ → ℝ) (n_gamma n_sources : ℕ)
    (search_radius_arcmin : ℝ) (n_iterations : ℕ) (p sig : ℝ) (dist : List ℕ)
    (hit : 1 ≤ n_iterations)
    (h : monte_carlo_significance rng n_gamma n_sources 0
        search_radius_arcmin n_iterations = some (p, sig, dist)) :
    p = 1 ∧ sig = 0 := by
  unfold monte_carlo_significance at h
  rw [if_neg (Nat.one_le_iff_ne_zero.mp hit)] at h
  simp only [Option.some.injEq, Prod.mk.injEq] at h
  obtain ⟨hp, hsig, hdist⟩ := h
  have hlen := null_distribution_length rng n_gamma n_sources
    (search_radius_arcmin / 60) n_iterations
  have hpos : (0 : ℝ) < (n_iterations : ℝ) := by
    exact_mod_cast Nat.lt_of_lt_of_le Nat.zero_lt_one hit
  have hcount : (null_distribution rng n_gamma n_sources
      (search_radius_arcmin / 60) n_iterations).countP
        (fun x => decide (0 ≤ x)) =
      (null_distribution rng n_gamma n_sources
        (search_radius_arcmin / 60) n_iterations).length :=
    List.countP_eq_length.mpr (fun a _ => by simp)
  have hpv : p_value_of (null_distribution rng n_gamma n_sources
      (search_radius_arcmin / 60) n_iterations) 0 n_iterations = 1 := by
    unfold p_value_of
    rw [hcount, hlen, div_self (ne_of_gt hpos)]
  refine ⟨by rw [← hp, hpv], ?_⟩
  rw [← hsig, hpv]
  unfold significance_of
  have hinv_le : 1 / (n_iterations : ℝ) ≤ 1 := by
    rw [div_le_one hpos]
    exact_mod_cast hit
  rw [max_eq_left hinv_le, Real.logb_one, neg_zero]

/-- Witness for C10 at a concrete input: the run of monte_carlo_eval has
observed count 0 and indeed returns p-value 1 and significance 0. -/
theorem C10_zero_observed_witness : 1 ≤ 1 ∧ ((1 : ℝ) = 1 ∧ (0 : ℝ) = 0) :=
  ⟨le_refl 1,
    C10_zero_observed (fun _ => 0) 0 0 0 1 1 0 [0] (le_refl 1) monte_carlo_eval⟩

theorem random_gamma_dec_eval : random_gamma_dec (3 / 4) = 30 := by
  unfold random_gamma_dec np_degrees
  rw [show (2 * (3 / 4) - 1 : ℝ) = 1 / 2 by norm_num]
  have h2 : Real.arcsin (1 / 2) = Real.pi / 6 := by
    rw [show (1 / 2 : ℝ) = Real.sin (Real.pi / 6) from Real.sin_pi_div_six.symm]
    apply Real.arcsin_sin
    · nlinarith [Real.pi_pos]
    · nlinarith [Real.pi_pos]
  rw [h2]
  have hpi := Real.pi_ne_zero
  field_simp
  ring

/-- C1 counterexample: the claim says the random points of both batches draw
Dec as arcsin(2U - 1) in degrees. Feeding the constant unit-uniform stream
u = 3/4, the secondary Dec batch (line 73, np.random.uniform(-90, 90)) draws
45 degrees, while the arcsin law of line 66 would give 30 degrees — so the
secondary batch is not drawn by the area-uniform law at this concrete input. -/
theorem C1_counterexample_secondary_dec :
    source_dec_draws (fun _ => 3 / 4) 0 1 = [45] ∧
      gamma_dec_draws (fun _ => 3 / 4) 0 1 = [30] ∧
      ¬ source_dec_draws (fun _ => 3 / 4) 0 1 =
          gamma_dec_draws (fun _ => 3 / 4) 0 1 := by
  have hsrc : source_dec_draws (fun _ => (3 : ℝ) / 4) 0 1 = [45] := by
    unfold source_dec_draws uniform_draws uniform_scale
    norm_num
  have hgam : gamma_dec_draws (fun _ => (3 : ℝ) / 4) 0 1 = [30] := by
    unfold gamma_dec_draws
    rw [show (List.range 1) = [0] from rfl]
    simp [random_gamma_dec_eval]
  refine ⟨hsrc, hgam, ?_⟩
  rw [hsrc, hgam]
  norm_num

/-- C1 amended: per iteration, the primary batch has RA = 360u uniform on
[0, 360) and Dec = degrees(arcsin(2u - 1)) — the area-uniform law, whose
defining property sin(Dec in radians) = 2u - 1 holds for u in [0, 1] — while
the secondary batch has RA = 360u but Dec = -90 + 180u, naive uniform on
[-90, 90), not the arcsin law. -/
theorem C1_draw_laws (u : ℝ) (h0 : 0 ≤ u) (h1 : u ≤ 1) :
    uniform_scale 0 360 u = 360 * u ∧
      random_gamma_dec u = np_degrees (Real.arcsin (2 * u - 1)) ∧
      Real.sin (deg2rad (random_gamma_dec u)) = 2 * u - 1 ∧
      uniform_scale (-90) 90 u = -90 + 180 * u := by
  refine ⟨by unfold uniform_scale; ring, rfl, ?_, by unfold uniform_scale; ring⟩
  unfold random_gamma_dec deg2rad np_degrees
  have hpi := Real.pi_ne_zero
  rw [show Real.arcsin (2 * u - 1) * (180 / Real.pi) * (Real.pi / 180) =
      Real.arcsin (2 * u - 1) by field_simp]
  exact Real.sin_arcsin (by linarith) (by linarith)

/-- Witness for the amended C1 at the concrete draw u = 3/4. -/
theorem C1_draw_laws_witness :
    (0 : ℝ) ≤ 3 / 4 ∧ (3 / 4 : ℝ) ≤ 1 ∧
      (uniform_scale 0 360 (3 / 4) = 360 * (3 / 4) ∧
        random_gamma_dec (3 / 4) = np_degrees (Real.arcsin (2 * (3 / 4) - 1)) ∧
        Real.sin (deg2rad (random_gamma_dec (3 / 4))) = 2 * (3 / 4) - 1 ∧
        uniform_scale (-90) 90 (3 / 4) = -90 + 180 * (3 / 4)) :=
  ⟨by norm_num, by norm_num, C1_draw_laws (3 / 4) (by norm_num) (by norm_num)⟩

theorem np_mean_eval : np_mean [0, 2] = 1 := by
  unfold np_mean
  norm_num

theorem np_std_eval : np_std [0, 2] = 1 := by
  unfold np_std
  rw [np_mean_eval]
  norm_num [Real.sqrt_one]

/-- C7 counterexample: on the null distribution [0, 2], line 287 (np.std with
its default ddof = 0, population denominator n) gives 1, while the unbiased
sample standard deviation claimed by the spec (denominator n - 1) gives
sqrt 2; at observed count 2 the z-score computed by line 288 is therefore 1
and not the value (2 - mean)/spec_unbiased_std the claim would require. -/
theorem C7_counterexample_std :
    np_std [0, 2] = 1 ∧ spec_unbiased_std [0, 2] = Real.sqrt 2 ∧
      z_score 2 [0, 2] = 1 ∧
      z_score 2 [0, 2] ≠ (2 - np_mean [0, 2]) / spec_unbiased_std [0, 2] := by
  have hspec : spec_unbiased_std [0, 2] = Real.sqrt 2 := by
    unfold spec_unbiased_std
    rw [np_mean_eval]
    norm_num
  have hz : z_score 2 [0, 2] = 1 := by
    unfold z_score
    rw [np_mean_eval, np_std_eval]
    norm_num
  refine ⟨np_std_eval, hspec, hz, ?_⟩
  rw [hz, hspec, np_mean_eval]
  have hgt : 1 < Real.sqrt 2 := by
    rw [show (1 : ℝ) = Real.sqrt 1 from Real.sqrt_one.symm]
    exact Real.sqrt_lt_sqrt (by norm_num) (by norm_num)
  have hlt : (2 - 1) / Real.sqrt 2 < 1 := by
    rw [div_lt_one (by linarith)]
    linarith
  exact ne_of_gt hlt

/-- C7 amended: the mean and standard deviation over the null distribution
are the numpy population statistics — mean = sum/n, std with denominator n
(ddof = 0), not the unbiased n - 1 — and the z-score is (observed - mean)/std:
std squared is the mean squared deviation, and z times std recovers
observed - mean whenever std is nonzero. -/
theorem C7_population_statistics (observed : ℕ) (xs : List ℕ) (hne : xs ≠ []) :
    np_std xs ^ 2 =
        (xs.map fun x => ((x : ℝ) - np_mean xs) ^ 2).sum / (xs.length : ℝ) ∧
      (np_std xs ≠ 0 →
        z_score observed xs * np_std xs = (observed : ℝ) - np_mean xs) := by
  have hlen : (0 : ℝ) < (xs.length : ℝ) := by
    have h := List.length_pos.mpr hne
    exact_mod_cast h
  constructor
  · unfold np_std
    apply Real.sq_sqrt
    apply div_nonneg _ hlen.le
    apply List.sum_nonneg
    intro x hx
    simp only [List.mem_map] at hx
    obtain ⟨y, _, hy⟩ := hx
    rw [← hy]
    positivity
  · intro hstd
    unfold z_score
    exact div_mul_cancel₀ _ hstd

/-- Witness for the amended C7 on the concrete distribution [0, 2] with
observed count 2. -/
theorem C7_population_statistics_witness :
    ([0, 2] : List ℕ) ≠ [] ∧
      (np_std [0, 2] ^ 2 =
          (([0, 2] : List ℕ).map fun x => ((x : ℝ) - np_mean [0, 2]) ^ 2).sum /
            (([0, 2] : List ℕ).length : ℝ) ∧
        (np_std [0, 2] ≠ 0 →
          z_score 2 [0, 2] * np_std [0, 2] = ((2 : ℕ) : ℝ) - np_mean [0, 2])) :=
  ⟨by simp, C7_population_statistics 2 [0, 2] (by simp)⟩
